import Mathlib

/-!
Shallow embedding of the credential-and-session core of the
rusty-auth-microservice repository (src/auth-service/users.rs,
sessions.rs, auth.rs), together with proofs of the specification
claims about it.

Rust HashMap<String, V> is modelled by an association list with
replace-on-insert semantics; lookups return the first matching entry.
The random sources (Uuid::new_v4 and the OsRng salt) are modelled as
fresh-name supplies: a counter threaded through the store state, with
an injective encoding of counter values as opaque nonempty strings.
PBKDF2 hashing is idealized as a collision-free derivation: the
derived digest determines the password for a fixed salt.
-/

namespace RustyAuth

/-- Lookup in an association list: first entry whose key equals k.
Models HashMap::get. -/
def findKey (k : String) : List (String × α) → Option α
  | [] => none
  | (k₀, v) :: t => if k₀ = k then some v else findKey k t

/-- Models HashMap::contains_key. -/
def containsKey (k : String) (l : List (String × α)) : Bool :=
  match findKey k l with
  | some _ => true
  | none => false

/-- Remove every entry with key k. Models HashMap::remove
(association lists built by insertKey hold each key at most once). -/
def eraseKey (k : String) : List (String × α) → List (String × α)
  | [] => []
  | (k₀, v) :: t => if k₀ = k then eraseKey k t else (k₀, v) :: eraseKey k t

/-- Insert with replacement. Models HashMap::insert. -/
def insertKey (k : String) (v : α) (l : List (String × α)) : List (String × α) :=
  (k, v) :: eraseKey k l

/-- Fresh opaque identifier for counter value n: models the output of
Uuid::new_v4 as drawn from a fresh-name supply. Injective and nonempty. -/
def genUuid (n : Nat) : String :=
  String.mk (List.replicate (n + 1) 'u')

/-- Idealized PBKDF2 digest of a password under a given salt: collision
free in the password for a fixed salt. -/
def pbkdf2Hash (salt : Nat) (password : String) : String :=
  toString salt ++ "$" ++ password

/-- A stored password-hash string in PHC format, as users.rs keeps in
User.password. `valid salt digest` models a string that
PasswordHash::new parses back into its salt and digest; `invalid raw`
models a string PasswordHash::new rejects. -/
inductive PhcString
  | valid (salt : Nat) (digest : String)
  | invalid (raw : String)
deriving DecidableEq

/-- PasswordHash::new on a stored hash string: recovers the
self-described parameters, or fails on a malformed string. -/
def parsePasswordHash : PhcString → Option (Nat × String)
  | .valid salt digest => some (salt, digest)
  | .invalid _ => none

/-- Pbkdf2.hash_password: derives the PHC string for the password under
the salt. Its Rust counterpart returns Result; the error branch is kept
by the callers below exactly as in the source. -/
def hash_password (password : String) (salt : Nat) : Except String PhcString :=
  .ok (.valid salt (pbkdf2Hash salt password))

/-- Pbkdf2.verify_password: re-derive with the stored salt and compare
against the stored digest. -/
def verify_password (password : String) (salt : Nat) (digest : String) : Bool :=
  pbkdf2Hash salt password == digest

/-- users.rs User: uuid, username, stored password hash. -/
structure User where
  user_uuid : String
  username : String
  password : PhcString
deriving DecidableEq

/-- users.rs UsersImpl: the two lookup indices, plus the fresh-name
counters modelling Uuid::new_v4 and the OsRng salt source. -/
structure UsersImpl where
  uuid_to_user : List (String × User)
  username_to_user : List (String × User)
  nextUuid : Nat
  nextSalt : Nat
deriving DecidableEq

/-- UsersImpl::create_user (users.rs lines 124-148). Returns the
Result together with the post-state of &mut self. -/
def create_user (st : UsersImpl) (username password : String) :
    Except String Unit × UsersImpl :=
  if containsKey username st.username_to_user then
    (.error "Unable to create user. Username already exists.", st)
  else
    match hash_password password st.nextSalt with
    | .error e => (.error ("Failed to hash password.\n" ++ e), st)
    | .ok hashed_password =>
      let user : User :=
        { user_uuid := genUuid st.nextUuid
          username := username
          password := hashed_password }
      (.ok (),
        { uuid_to_user := insertKey user.user_uuid user st.uuid_to_user
          username_to_user := insertKey username user st.username_to_user
          nextUuid := st.nextUuid + 1
          nextSalt := st.nextSalt + 1 })

/-- UsersImpl::get_user_uuid (users.rs lines 171-186). -/
def get_user_uuid (st : UsersImpl) (username password : String) : Option String :=
  match findKey username st.username_to_user with
  | none => none
  | some user =>
    match parsePasswordHash user.password with
    | none => none
    | some (salt, digest) =>
      if user.username == username && verify_password password salt digest then
        some user.user_uuid
      else
        none

/-- UsersImpl::delete_user (users.rs lines 201-207). -/
def delete_user (st : UsersImpl) (user_uuid : String) : UsersImpl :=
  match findKey user_uuid st.uuid_to_user with
  | none => st
  | some user =>
    { st with
      username_to_user := eraseKey user.username st.username_to_user
      uuid_to_user := eraseKey user.user_uuid st.uuid_to_user }

/-- sessions.rs SessionsImpl: user uuid → session token, plus the
fresh-name counter modelling Uuid::new_v4. -/
structure SessionsImpl where
  uuid_to_session : List (String × String)
  nextUuid : Nat
deriving DecidableEq

/-- SessionsImpl::create_session (sessions.rs lines 72-76). -/
def create_session (st : SessionsImpl) (user_uuid : String) :
    String × SessionsImpl :=
  let session := genUuid st.nextUuid
  (session,
    { uuid_to_session := insertKey user_uuid session st.uuid_to_session
      nextUuid := st.nextUuid + 1 })

/-- SessionsImpl::delete_session (sessions.rs lines 91-95). -/
def delete_session (st : SessionsImpl) (user_uuid : String) : SessionsImpl :=
  if containsKey user_uuid st.uuid_to_session then
    { st with uuid_to_session := eraseKey user_uuid st.uuid_to_session }
  else
    st

/-- The gRPC StatusCode enum of the authentication proto. -/
inductive StatusCode
  | success
  | failure
deriving DecidableEq

/-- SignInResponse message. -/
structure SignInResponse where
  status_code : StatusCode
  user_uuid : String
  session_token : String
deriving DecidableEq

/-- SignUpResponse message. -/
structure SignUpResponse where
  status_code : StatusCode
deriving DecidableEq

/-- SignOutResponse message. -/
structure SignOutResponse where
  status_code : StatusCode
deriving DecidableEq

/-- tonic::Status, the transport-level error a handler could return in
the Err arm of its Result. -/
structure GrpcStatus where
  message : String
deriving DecidableEq

/-- AuthService::sign_in (auth.rs lines 94-130). Returns the handler
Result together with the post-states of the two stores. -/
def sign_in (ust : UsersImpl) (sst : SessionsImpl) (username password : String) :
    Except GrpcStatus (SignInResponse × UsersImpl × SessionsImpl) :=
  match get_user_uuid ust username password with
  | none =>
    .ok ({ status_code := .failure, user_uuid := "", session_token := "" }, ust, sst)
  | some user_uuid =>
    let (session_token, sst₂) := create_session sst user_uuid
    .ok ({ status_code := .success, user_uuid := user_uuid,
           session_token := session_token }, ust, sst₂)

/-- AuthService::sign_up (auth.rs lines 157-182). -/
def sign_up (ust : UsersImpl) (username password : String) :
    Except GrpcStatus (SignUpResponse × UsersImpl) :=
  match create_user ust username password with
  | (.ok _, ust₂) => .ok ({ status_code := .success }, ust₂)
  | (.error _, ust₂) => .ok ({ status_code := .failure }, ust₂)

/-- AuthService::sign_out (auth.rs lines 208-220). -/
def sign_out (sst : SessionsImpl) (session_token : String) :
    Except GrpcStatus (SignOutResponse × SessionsImpl) :=
  .ok ({ status_code := .success }, delete_session sst session_token)

/-- The two lookup indices of a credential store are in sync: each
record reachable through one index is reachable through the other,
keyed by its own field. -/
def Synced (st : UsersImpl) : Prop :=
  (∀ k u, findKey k st.uuid_to_user = some u →
      k = u.user_uuid ∧ findKey u.username st.username_to_user = some u) ∧
  (∀ k u, findKey k st.username_to_user = some u →
      k = u.username ∧ findKey u.user_uuid st.uuid_to_user = some u)

/-- Auxiliary invariant: every stored uuid was drawn from the fresh
supply below the current counter. -/
def UuidsFresh (st : UsersImpl) : Prop :=
  ∀ k u, findKey k st.uuid_to_user = some u →
    ∃ j, j < st.nextUuid ∧ u.user_uuid = genUuid j

/-- Credential-store states reachable from the empty store through the
mutating operations of the Users trait. -/
inductive Reachable : UsersImpl → Prop
  | init : Reachable ⟨[], [], 0, 0⟩
  | step_create (st : UsersImpl) (u p : String) :
      Reachable st → Reachable (create_user st u p).2
  | step_delete (st : UsersImpl) (id : String) :
      Reachable st → Reachable (delete_user st id)

/- ------------------------------------------------------------------
Basic lemmas about the association-list map operations.
------------------------------------------------------------------ -/

theorem findKey_eraseKey (k k₀ : String) (l : List (String × α)) :
    findKey k₀ (eraseKey k l) = if k₀ = k then none else findKey k₀ l := by
  induction l with
  | nil => simp [eraseKey, findKey]
  | cons hd tl ih =>
    obtain ⟨k₁, v⟩ := hd
    by_cases h1 : k₁ = k
    · subst h1
      by_cases h2 : k₀ = k₁
      · subst h2
        simp [eraseKey, findKey, ih]
      · have h3 : ¬ k₁ = k₀ := fun h => h2 h.symm
        simp [eraseKey, findKey, ih, h2, h3]
    · by_cases h2 : k₁ = k₀
      · subst h2
        simp [eraseKey, findKey, h1]
      · simp [eraseKey, findKey, h1, h2, ih]

theorem findKey_insertKey (k k₀ : String) (v : α) (l : List (String × α)) :
    findKey k₀ (insertKey k v l) = if k₀ = k then some v else findKey k₀ l := by
  rw [insertKey, findKey]
  by_cases h : k = k₀
  · subst h; simp
  · rw [if_neg h, findKey_eraseKey]
    by_cases h2 : k₀ = k
    · exact absurd h2.symm h
    · simp [h2]

theorem containsKey_iff (k : String) (l : List (String × α)) :
    containsKey k l = true ↔ ∃ v, findKey k l = some v := by
  rw [containsKey]
  cases h : findKey k l <;> simp

theorem containsKey_false_iff (k : String) (l : List (String × α)) :
    containsKey k l = false ↔ findKey k l = none := by
  rw [containsKey]
  cases h : findKey k l <;> simp

theorem eraseKey_of_not_contains (k : String) (l : List (String × α))
    (h : containsKey k l = false) : eraseKey k l = l := by
  induction l with
  | nil => rfl
  | cons hd tl ih =>
    obtain ⟨k₁, v⟩ := hd
    rw [containsKey, findKey] at h
    by_cases h1 : k₁ = k
    · rw [if_pos h1] at h; simp at h
    · rw [if_neg h1] at h
      rw [eraseKey, if_neg h1, ih]
      rw [containsKey]
      exact h

theorem genUuid_injective (m n : Nat) (h : genUuid m = genUuid n) : m = n := by
  have hd : List.replicate (m + 1) 'u' = List.replicate (n + 1) 'u' :=
    congrArg String.data h
  have hl := congrArg List.length hd
  simpa using hl

theorem genUuid_ne_empty (n : Nat) : genUuid n ≠ "" := by
  intro h
  have hd : List.replicate (n + 1) 'u' = [] := congrArg String.data h
  simp at hd

theorem pbkdf2Hash_inj (salt : Nat) (p q : String)
    (h : pbkdf2Hash salt p = pbkdf2Hash salt q) : p = q := by
  have hd := congrArg String.data h
  simp only [pbkdf2Hash, String.data_append] at hd
  exact String.ext (List.append_cancel_left hd)

theorem filter_eraseKey (k : String) (l : List (String × α)) :
    (eraseKey k l).filter (fun q => q.1 == k) = [] := by
  induction l with
  | nil => rfl
  | cons hd tl ih =>
    obtain ⟨k₁, v⟩ := hd
    by_cases h : k₁ = k
    · simp [eraseKey, h, ih]
    · simp [eraseKey, h, ih]

theorem create_user_error_state (st : UsersImpl) (u p : String) (e : String)
    (h : (create_user st u p).1 = .error e) : (create_user st u p).2 = st := by
  by_cases hc : containsKey u st.username_to_user
  · simp [create_user, hc]
  · simp [create_user, hc, hash_password] at h

/- ------------------------------------------------------------------
Claim theorems.
------------------------------------------------------------------ -/

/-- Claim C9: for every session-store state and every presented session
token, the sign_out handler returns status SUCCESS, regardless of
whether any session existed for that token, and never signals a
not-found outcome: the response is always the SUCCESS envelope with the
store updated only through delete_session. -/
theorem sign_out_always_success (sst : SessionsImpl) (t : String) :
    sign_out sst t = .ok ({ status_code := .success }, delete_session sst t) :=
  rfl

/-- Claim C10: delete_session is idempotent and total: deleting an
absent key leaves the state unchanged and does not error, deleting
twice equals deleting once, and after a delete the entry for the key is
gone. -/
theorem delete_session_idempotent (sst : SessionsImpl) (k : String) :
    (containsKey k sst.uuid_to_session = false → delete_session sst k = sst) ∧
    delete_session (delete_session sst k) k = delete_session sst k ∧
    findKey k (delete_session sst k).uuid_to_session = none := by
  by_cases h : containsKey k sst.uuid_to_session
  · have h2 : containsKey k (eraseKey k sst.uuid_to_session) = false := by
      rw [containsKey_false_iff, findKey_eraseKey]
      simp
    have hds : delete_session sst k =
        ⟨eraseKey k sst.uuid_to_session, sst.nextUuid⟩ := by
      rw [delete_session, if_pos h]
    refine ⟨fun hf => absurd h (by simp [hf]), ?_, ?_⟩
    · rw [hds, delete_session]
      simp [h2]
    · rw [hds]
      simp [findKey_eraseKey]
  · have h0 : containsKey k sst.uuid_to_session = false := by simpa using h
    have h1 : delete_session sst k = sst := by
      rw [delete_session, if_neg]
      simp [h0]
    refine ⟨fun _ => h1, by rw [h1, h1], ?_⟩
    rw [h1]
    exact (containsKey_false_iff k sst.uuid_to_session).mp h0

/-- Witness for C10 at a concrete store: deleting a never-created key
is a no-op and deleting twice equals deleting once. -/
theorem delete_session_idempotent_witness :
    delete_session ⟨[("a", "t")], 3⟩ "b" = ⟨[("a", "t")], 3⟩ ∧
    delete_session (delete_session ⟨[("a", "t")], 3⟩ "b") "b"
      = delete_session ⟨[("a", "t")], 3⟩ "b" :=
  ⟨(delete_session_idempotent ⟨[("a", "t")], 3⟩ "b").1 (by decide),
   (delete_session_idempotent ⟨[("a", "t")], 3⟩ "b").2.1⟩

/-- Claim C2: presenting sign_out a token that is not a key of the
identity-to-token mapping (which is how the handler calls it, since the
map is keyed by identity and the handler passes the token) leaves the
session store exactly unchanged while still returning SUCCESS, so a
session created for an identity stays live. -/
theorem sign_out_unknown_token_frame (sst : SessionsImpl) (t : String)
    (h : containsKey t sst.uuid_to_session = false) :
    sign_out sst t = .ok ({ status_code := .success }, sst) := by
  rw [sign_out, delete_session, if_neg]
  simp [h]

/-- Witness for C2: a store holding a live session for identity uuid1
with token tok1; signing out with the token itself (not a key) returns
SUCCESS and leaves the session in place. -/
theorem sign_out_unknown_token_frame_witness :
    sign_out ⟨[("uuid1", "tok1")], 1⟩ "tok1" =
      .ok ({ status_code := .success }, ⟨[("uuid1", "tok1")], 1⟩) :=
  sign_out_unknown_token_frame ⟨[("uuid1", "tok1")], 1⟩ "tok1" (by decide)

/-- Claim C6: create_session issues distinct tokens on two successive
calls for the same identity, each call stores its token under that
identity, and after the second call the identity maps to the second
token only, the final store holding exactly one entry for the identity
(last-write-wins, at most one live session per identity). -/
theorem create_session_last_write_wins (sst : SessionsImpl) (id : String) :
    (create_session sst id).1 ≠ (create_session (create_session sst id).2 id).1 ∧
    findKey id (create_session sst id).2.uuid_to_session
      = some (create_session sst id).1 ∧
    findKey id (create_session (create_session sst id).2 id).2.uuid_to_session
      = some (create_session (create_session sst id).2 id).1 ∧
    ((create_session (create_session sst id).2 id).2.uuid_to_session.filter
      (fun q => q.1 == id)).length = 1 := by
  refine ⟨?_, ?_, ?_, ?_⟩
  · intro h
    have := genUuid_injective sst.nextUuid (sst.nextUuid + 1) h
    omega
  · simp [create_session, findKey_insertKey]
  · simp [create_session, findKey_insertKey]
  · simp [create_session, insertKey, filter_eraseKey]

/-- Claim C7: sign_in returns FAILURE with empty identity and token
exactly when credential verification returns none, and otherwise
returns SUCCESS carrying the verified identity and the token newly
issued by create_session for it. -/
theorem sign_in_characterization (ust : UsersImpl) (sst : SessionsImpl)
    (u p : String) :
    (get_user_uuid ust u p = none →
      sign_in ust sst u p =
        .ok ({ status_code := .failure, user_uuid := "", session_token := "" },
             ust, sst)) ∧
    (∀ id, get_user_uuid ust u p = some id →
      sign_in ust sst u p =
        .ok ({ status_code := .success, user_uuid := id,
               session_token := (create_session sst id).1 },
             ust, (create_session sst id).2)) := by
  constructor
  · intro h
    simp [sign_in, h]
  · intro id h
    simp [sign_in, h, create_session]

/-- Witness for C7: sign-in without prior sign-up fails with the empty
payload. -/
theorem sign_in_characterization_witness :
    sign_in ⟨[], [], 0, 0⟩ ⟨[], 0⟩ "ghost" "x" =
      .ok ({ status_code := .failure, user_uuid := "", session_token := "" },
           ⟨[], [], 0, 0⟩, ⟨[], 0⟩) :=
  (sign_in_characterization ⟨[], [], 0, 0⟩ ⟨[], 0⟩ "ghost" "x").1 rfl

/-- Claim C8: each handler returns a transport-level Ok envelope on
every input, and every domain failure of create_user is absorbed into
the single FAILURE status with the store unchanged, revealing no detail
of which failure occurred. -/
theorem handlers_absorb_domain_failures (ust : UsersImpl) (sst : SessionsImpl)
    (u p t : String) :
    (∃ r, sign_in ust sst u p = .ok r) ∧
    (∃ r, sign_up ust u p = .ok r) ∧
    (∃ r, sign_out sst t = .ok r) ∧
    (∀ e, (create_user ust u p).1 = .error e →
      sign_up ust u p = .ok ({ status_code := .failure }, ust)) := by
  refine ⟨?_, ?_, ⟨_, rfl⟩, ?_⟩
  · rcases hg : get_user_uuid ust u p with _ | id
    · exact ⟨({ status_code := .failure, user_uuid := "", session_token := "" },
              ust, sst), by simp [sign_in, hg]⟩
    · exact ⟨({ status_code := .success, user_uuid := id,
                session_token := (create_session sst id).1 },
              ust, (create_session sst id).2), by simp [sign_in, hg]⟩
  · rcases hc : create_user ust u p with ⟨r, st₂⟩
    rcases r with e | r
    · exact ⟨({ status_code := .failure }, st₂), by simp [sign_up, hc]⟩
    · exact ⟨({ status_code := .success }, st₂), by simp [sign_up, hc]⟩
  · intro e he
    have hst : (create_user ust u p).2 = ust := create_user_error_state ust u p e he
    rcases hc : create_user ust u p with ⟨r, st₂⟩
    rw [hc] at he hst
    simp at he hst
    subst hst
    simp [sign_up, hc, he]

/-- Witness for C8: a duplicate sign-up collapses into the plain
FAILURE envelope with the store unchanged. -/
theorem handlers_absorb_domain_failures_witness :
    sign_up ⟨[("u1", ⟨"u1", "bob", .valid 0 (pbkdf2Hash 0 "p1")⟩)],
             [("bob", ⟨"u1", "bob", .valid 0 (pbkdf2Hash 0 "p1")⟩)], 1, 1⟩
        "bob" "p2" =
      .ok ({ status_code := .failure },
           ⟨[("u1", ⟨"u1", "bob", .valid 0 (pbkdf2Hash 0 "p1")⟩)],
            [("bob", ⟨"u1", "bob", .valid 0 (pbkdf2Hash 0 "p1")⟩)], 1, 1⟩) :=
  (handlers_absorb_domain_failures _ ⟨[], 0⟩ "bob" "p2" "t").2.2.2
    "Unable to create user. Username already exists." (by rfl)

/-- Claim C1: for every store state and every username not yet in the
username index, create_user succeeds, and on the resulting state
get_user_uuid with the same credentials returns some identity, which is
nonempty. -/
theorem create_user_then_verify (st : UsersImpl) (u p : String)
    (h : containsKey u st.username_to_user = false) :
    (create_user st u p).1 = .ok () ∧
    ∃ id, get_user_uuid (create_user st u p).2 u p = some id ∧ id ≠ "" := by
  constructor
  · simp [create_user, h, hash_password]
  · refine ⟨genUuid st.nextUuid, ?_, genUuid_ne_empty st.nextUuid⟩
    simp [create_user, h, hash_password, get_user_uuid, findKey_insertKey,
      parsePasswordHash, verify_password]

/-- Witness for C1: registering alice in the empty store and verifying
her credentials yields a nonempty identity. -/
theorem create_user_then_verify_witness :
    (create_user ⟨[], [], 0, 0⟩ "alice" "secret").1 = .ok () ∧
    ∃ id, get_user_uuid (create_user ⟨[], [], 0, 0⟩ "alice" "secret").2
        "alice" "secret" = some id ∧ id ≠ "" :=
  create_user_then_verify ⟨[], [], 0, 0⟩ "alice" "secret" (by rfl)

/-- Claim C3: when the username is already registered create_user fails
with the duplicate-username error, and every failure of create_user
leaves the store state, hence both indices and the stored record count,
exactly as before the call. -/
theorem create_user_duplicate_and_failure_frame (st : UsersImpl) (u p : String) :
    (containsKey u st.username_to_user = true →
      (create_user st u p).1 =
        .error "Unable to create user. Username already exists.") ∧
    (∀ e, (create_user st u p).1 = .error e →
      (create_user st u p).2 = st ∧
      (create_user st u p).2.uuid_to_user.length = st.uuid_to_user.length ∧
      (create_user st u p).2.username_to_user.length = st.username_to_user.length) := by
  constructor
  · intro h
    simp [create_user, h]
  · intro e he
    have h2 := create_user_error_state st u p e he
    exact ⟨h2, by rw [h2], by rw [h2]⟩

/-- Witness for C3: re-registering bob fails with the duplicate error
and the store is unchanged. -/
theorem create_user_duplicate_and_failure_frame_witness :
    (create_user ⟨[("u1", ⟨"u1", "bob", .valid 0 (pbkdf2Hash 0 "p1")⟩)],
        [("bob", ⟨"u1", "bob", .valid 0 (pbkdf2Hash 0 "p1")⟩)], 1, 1⟩
      "bob" "p2").1 =
      .error "Unable to create user. Username already exists." ∧
    (create_user ⟨[("u1", ⟨"u1", "bob", .valid 0 (pbkdf2Hash 0 "p1")⟩)],
        [("bob", ⟨"u1", "bob", .valid 0 (pbkdf2Hash 0 "p1")⟩)], 1, 1⟩
      "bob" "p2").2 =
      ⟨[("u1", ⟨"u1", "bob", .valid 0 (pbkdf2Hash 0 "p1")⟩)],
       [("bob", ⟨"u1", "bob", .valid 0 (pbkdf2Hash 0 "p1")⟩)], 1, 1⟩ :=
  ⟨(create_user_duplicate_and_failure_frame _ "bob" "p2").1 (by rfl),
   ((create_user_duplicate_and_failure_frame _ "bob" "p2").2
     "Unable to create user. Username already exists." (by rfl)).1⟩

/-- Claim C4: get_user_uuid returns the stored identity only when the
username is present and the supplied password re-derives to the stored
digest; it returns none when the username is absent, when the stored
hash is malformed (without failing), and when the password differs from
the registered one; and a some result forces an exactly matching
record. -/
theorem get_user_uuid_characterization (st : UsersImpl) (u p : String) :
    (findKey u st.username_to_user = none → get_user_uuid st u p = none) ∧
    (∀ user, findKey u st.username_to_user = some user →
      parsePasswordHash user.password = none → get_user_uuid st u p = none) ∧
    (∀ user salt p₀, findKey u st.username_to_user = some user →
      user.password = PhcString.valid salt (pbkdf2Hash salt p₀) →
      p ≠ p₀ → get_user_uuid st u p = none) ∧
    (∀ id, get_user_uuid st u p = some id ↔
      ∃ user salt digest, findKey u st.username_to_user = some user ∧
        user.user_uuid = id ∧ user.username = u ∧
        parsePasswordHash user.password = some (salt, digest) ∧
        pbkdf2Hash salt p = digest) := by
  refine ⟨?_, ?_, ?_, ?_⟩
  · intro h
    simp [get_user_uuid, h]
  · intro user hu hp
    simp [get_user_uuid, hu, hp]
  · intro user salt p₀ hu hpw hne
    have hh : (pbkdf2Hash salt p == pbkdf2Hash salt p₀) = false := by
      rw [beq_eq_false_iff_ne]
      exact fun h => hne (pbkdf2Hash_inj salt p p₀ h)
    simp [get_user_uuid, hu, hpw, parsePasswordHash, verify_password, hh]
  · intro id
    constructor
    · intro h
      rw [get_user_uuid] at h
      split at h
      · exact absurd h (by simp)
      · rename_i user hu
        split at h
        · exact absurd h (by simp)
        · rename_i salt digest hp
          by_cases hc : (user.username == u && verify_password p salt digest) = true
          · rw [if_pos hc] at h
            rw [Bool.and_eq_true] at hc
            refine ⟨user, salt, digest, hu, by simpa using h, ?_, hp, ?_⟩
            · exact eq_of_beq hc.1
            · have hv := hc.2
              rw [verify_password] at hv
              exact eq_of_beq hv
          · rw [if_neg hc] at h
            exact absurd h (by simp)
    · rintro ⟨user, salt, digest, hu, hid, hname, hp, hd⟩
      simp [get_user_uuid, hu, hp, hname, hid, verify_password, hd]

/-- Witness for C4: with bob registered under password p1, a sign-in
attempt with p2 returns none. -/
theorem get_user_uuid_characterization_witness :
    get_user_uuid ⟨[("u1", ⟨"u1", "bob", .valid 0 (pbkdf2Hash 0 "p1")⟩)],
        [("bob", ⟨"u1", "bob", .valid 0 (pbkdf2Hash 0 "p1")⟩)], 1, 1⟩
      "bob" "p2" = none :=
  (get_user_uuid_characterization _ "bob" "p2").2.2.1
    ⟨"u1", "bob", .valid 0 (pbkdf2Hash 0 "p1")⟩ 0 "p1" (by rfl) rfl (by decide)

theorem synced_fresh_create (st : UsersImpl) (u p : String)
    (hS : Synced st) (hF : UuidsFresh st) :
    Synced (create_user st u p).2 ∧ UuidsFresh (create_user st u p).2 := by
  by_cases hc : containsKey u st.username_to_user
  · have he : (create_user st u p).2 = st := by simp [create_user, hc]
    rw [he]
    exact ⟨hS, hF⟩
  · have h0 : containsKey u st.username_to_user = false := by simpa using hc
    have hfind : findKey u st.username_to_user = none :=
      (containsKey_false_iff u st.username_to_user).mp h0
    have hstate : (create_user st u p).2 =
        ⟨insertKey (genUuid st.nextUuid)
            ⟨genUuid st.nextUuid, u, .valid st.nextSalt (pbkdf2Hash st.nextSalt p)⟩
            st.uuid_to_user,
          insertKey u
            ⟨genUuid st.nextUuid, u, .valid st.nextSalt (pbkdf2Hash st.nextSalt p)⟩
            st.username_to_user,
          st.nextUuid + 1, st.nextSalt + 1⟩ := by
      simp [create_user, h0, hash_password]
    rw [hstate]
    obtain ⟨hS1, hS2⟩ := hS
    refine ⟨⟨?_, ?_⟩, ?_⟩
    · intro k w hk
      simp only [findKey_insertKey] at hk
      by_cases hkn : k = genUuid st.nextUuid
      · rw [if_pos hkn] at hk
        have hw : w =
            ⟨genUuid st.nextUuid, u, .valid st.nextSalt (pbkdf2Hash st.nextSalt p)⟩ := by
          injection hk with hk2
          exact hk2.symm
        subst hw
        refine ⟨hkn, ?_⟩
        simp [findKey_insertKey]
      · rw [if_neg hkn] at hk
        obtain ⟨hk1, hk2⟩ := hS1 k w hk
        refine ⟨hk1, ?_⟩
        have hwu : ¬ w.username = u := by
          intro hwu
          rw [hwu, hfind] at hk2
          exact Option.noConfusion hk2
        simp only [findKey_insertKey]
        rw [if_neg hwu]
        exact hk2
    · intro k w hk
      simp only [findKey_insertKey] at hk
      by_cases hku : k = u
      · rw [if_pos hku] at hk
        have hw : w =
            ⟨genUuid st.nextUuid, u, .valid st.nextSalt (pbkdf2Hash st.nextSalt p)⟩ := by
          injection hk with hk2
          exact hk2.symm
        subst hw
        refine ⟨hku, ?_⟩
        simp [findKey_insertKey]
      · rw [if_neg hku] at hk
        obtain ⟨hk1, hk2⟩ := hS2 k w hk
        refine ⟨hk1, ?_⟩
        have hwu : ¬ w.user_uuid = genUuid st.nextUuid := by
          intro hwu
          obtain ⟨j, hj, hje⟩ := hF w.user_uuid w hk2
          rw [hwu] at hje
          have := genUuid_injective st.nextUuid j hje
          omega
        simp only [findKey_insertKey]
        rw [if_neg hwu]
        exact hk2
    · intro k w hk
      simp only [findKey_insertKey] at hk
      by_cases hkn : k = genUuid st.nextUuid
      · rw [if_pos hkn] at hk
        have hw : w =
            ⟨genUuid st.nextUuid, u, .valid st.nextSalt (pbkdf2Hash st.nextSalt p)⟩ := by
          injection hk with hk2
          exact hk2.symm
        subst hw
        refine ⟨st.nextUuid, ?_, rfl⟩
        show st.nextUuid < st.nextUuid + 1
        omega
      · rw [if_neg hkn] at hk
        obtain ⟨j, hj, hje⟩ := hF k w hk
        refine ⟨j, ?_, hje⟩
        show j < st.nextUuid + 1
        omega

theorem synced_fresh_delete (st : UsersImpl) (id : String)
    (hS : Synced st) (hF : UuidsFresh st) :
    Synced (delete_user st id) ∧ UuidsFresh (delete_user st id) := by
  obtain ⟨hS1, hS2⟩ := hS
  rcases hd : findKey id st.uuid_to_user with _ | user
  · have he : delete_user st id = st := by simp [delete_user, hd]
    rw [he]
    exact ⟨⟨hS1, hS2⟩, hF⟩
  · have he : delete_user st id =
        ⟨eraseKey user.user_uuid st.uuid_to_user,
         eraseKey user.username st.username_to_user,
         st.nextUuid, st.nextSalt⟩ := by
      simp [delete_user, hd]
    obtain ⟨hdu, hdn⟩ := hS1 id user hd
    rw [he]
    refine ⟨⟨?_, ?_⟩, ?_⟩
    · intro k w hk
      simp only [findKey_eraseKey] at hk
      by_cases hke : k = user.user_uuid
      · rw [if_pos hke] at hk
        exact Option.noConfusion hk
      · rw [if_neg hke] at hk
        obtain ⟨hk1, hk2⟩ := hS1 k w hk
        refine ⟨hk1, ?_⟩
        simp only [findKey_eraseKey]
        rw [if_neg]
        · exact hk2
        · intro hwn
          rw [hwn, hdn] at hk2
          have hw : user = w := by injection hk2
          exact hke (hw.symm ▸ hk1)
    · intro k w hk
      simp only [findKey_eraseKey] at hk
      by_cases hke : k = user.username
      · rw [if_pos hke] at hk
        exact Option.noConfusion hk
      · rw [if_neg hke] at hk
        obtain ⟨hk1, hk2⟩ := hS2 k w hk
        refine ⟨hk1, ?_⟩
        simp only [findKey_eraseKey]
        rw [if_neg]
        · exact hk2
        · intro hwu
          rw [hwu, ← hdu, hd] at hk2
          have hw : user = w := by injection hk2
          exact hke (hw.symm ▸ hk1)
    · intro k w hk
      simp only [findKey_eraseKey] at hk
      by_cases hke : k = user.user_uuid
      · rw [if_pos hke] at hk
        exact Option.noConfusion hk
      · rw [if_neg hke] at hk
        exact hF k w hk

theorem synced_fresh_of_reachable (st : UsersImpl) (h : Reachable st) :
    Synced st ∧ UuidsFresh st := by
  induction h with
  | init =>
    refine ⟨⟨?_, ?_⟩, ?_⟩ <;> intro k w hk <;> simp [findKey] at hk
  | step_create st u p hst ih => exact synced_fresh_create st u p ih.1 ih.2
  | step_delete st id hst ih => exact synced_fresh_delete st id ih.1 ih.2

/-- Claim C5: in every store state reachable from the empty store
through create_user and delete_user, the two lookup indices are in
sync: a record sits in the identity index exactly when the same record
sits in the username index under its own username, so every insert and
delete keeps both indices consistent. -/
theorem reachable_indices_synced (st : UsersImpl) (h : Reachable st) :
    Synced st :=
  (synced_fresh_of_reachable st h).1

/-- Witness for C5 at the initial store. -/
theorem reachable_indices_synced_witness : Synced ⟨[], [], 0, 0⟩ :=
  reachable_indices_synced ⟨[], [], 0, 0⟩ Reachable.init

end RustyAuth
